import Mathlib

/-!
Shallow embedding of the core of the python-varname library
(src/varname/core.py, src/varname/utils.py, src/varname/ignore.py),
with theorems settling the frozen claims about its specification.

Conventions of the embedding:
* Python exceptions are modelled by the error type below, carried in
  an Except value.  Error message texts follow the source but drop the
  decoration added by rich_exc_message (which renders source context
  from the live frame) and quoting of interpolated values.
* Python sequence indexing (including negative indexes) is modelled by
  pyGet; an out-of-range index is the plain Python IndexError, a missing
  mapping key the plain KeyError.  Those two are not varname exceptions.
* Strings are ASCII; the Python str methods used by the source
  (startswith, endswith, isidentifier, isdigit) are modelled on the
  character sequence of the string.
-/

/-- The single quote character, used when rendering Python repr forms. -/
def pyq : String := (Char.ofNat 39).toString

/-- Exceptions raised by the modelled code.  improperUse, varnameRetrieving
and qualnameNonUnique model the varname exception classes of
src/varname/utils.py; indexError, keyError, typeError and valueError model
the corresponding builtin Python exceptions escaping the modelled code. -/
inductive PyErr where
  | improperUse (msg : String)
  | varnameRetrieving (msg : String)
  | qualnameNonUnique (msg : String)
  | indexError
  | keyError (key : String)
  | typeError
  | valueError

/-- Python list/tuple indexing: nonnegative indexes from the front,
negative indexes from the back, none when out of range (IndexError). -/
def pyGet (l : List α) (i : Int) : Option α :=
  let j : Int := if i < 0 then (l.length : Int) + i else i
  if 0 ≤ j then l.get? j.toNat else none

/-- Result of node_name: Python returns either a str or a (nested) tuple
of the names, so the result is a finitely branching tree of strings. -/
inductive NameTree where
  | leaf (v : String)
  | tup (elems : List NameTree)

mutual

/-- Python repr() of a node_name result (ASCII approximation of CPython
repr): a str reprs in quotes, a single-element tuple with a trailing
comma. -/
def py_repr_nt : NameTree → String
  | .leaf v => pyq ++ v ++ pyq
  | .tup [x] => "(" ++ py_repr_nt x ++ ",)"
  | .tup xs => "(" ++ String.intercalate ", " (py_repr_list xs) ++ ")"

/-- repr of each element of a tuple, in order. -/
def py_repr_list : List NameTree → List String
  | [] => []
  | x :: rest => py_repr_nt x :: py_repr_list rest

end

/-- Python repr of a tuple of node_name results. -/
def py_tuple_repr (xs : List NameTree) : String :=
  match xs with
  | [x] => "(" ++ py_repr_nt x ++ ",)"
  | _ => "(" ++ String.intercalate ", " (py_repr_list xs) ++ ")"

/-- Python str() of a node_name result: a str renders as itself, a tuple
renders as its repr. -/
def render : NameTree → String
  | .leaf v => v
  | .tup xs => py_tuple_repr xs

/-- The Python ast expression nodes distinguished by node_name
(src/varname/utils.py, lines 189-244).  constant carries the repr text of
its value, since node_name only ever uses repr(node.value).  otherNode
stands for every other ast node type and carries the type name. -/
inductive AstExpr where
  | name (id : String)
  | attribute (value : AstExpr) (attr : String)
  | constant (reprv : String)
  | listE (elts : List AstExpr)
  | tupleE (elts : List AstExpr)
  | starred (value : AstExpr)
  | subscript (value : AstExpr) (slice : AstExpr)
  | sliceE (lower upper step : Option AstExpr)
  | otherNode (typeName : String)

/-- type(node).__name__ for the modelled ast nodes. -/
def ast_type_name : AstExpr → String
  | .name _ => "Name"
  | .attribute _ _ => "Attribute"
  | .constant _ => "Constant"
  | .listE _ => "List"
  | .tupleE _ => "Tuple"
  | .starred _ => "Starred"
  | .subscript _ _ => "Subscript"
  | .sliceE _ _ _ => "Slice"
  | .otherNode t => t

/-- The ImproperUseError message for unsupported nodes
(src/varname/utils.py, lines 235-244). -/
def node_name_err_msg (nm : String) : String :=
  "Node " ++ pyq ++ nm ++ pyq ++
  " detected, but only following nodes are supported: \n" ++
  "  - ast.Name (e.g. x)\n" ++
  "  - ast.Attribute (e.g. x.y, x be other supported nodes)\n" ++
  "  - ast.Constant (e.g. 1)\n" ++
  "  - ast.List (e.g. [x, y, z])\n" ++
  "  - ast.Tuple (e.g. (x, y, z))\n" ++
  "  - ast.Starred (e.g. *x)\n" ++
  "  - ast.Subscript with slice of the above nodes (e.g. x[y])"

/-- Python str.join over node_name results requires every element to be a
str; a tuple element raises TypeError. -/
def as_str_list : List NameTree → Except PyErr (List String)
  | [] => .ok []
  | .leaf v :: rest => do
      let vs ← as_str_list rest
      .ok (v :: vs)
  | .tup _ :: _ => .error .typeError

mutual

/-- node_name from src/varname/utils.py, lines 189-244: the name (or
nested tuple of names) of an assignment-target node.  Raises
ImproperUseError on unsupported nodes. -/
def node_name (node : AstExpr) (subscript_slice : Bool) :
    Except PyErr NameTree :=
  match node with
  | .name id => .ok (.leaf id)
  | .attribute value attr => do
      let v ← node_name value false
      .ok (.leaf (render v ++ "." ++ attr))
  | .constant reprv => .ok (.leaf reprv)
  | .listE elts =>
      if subscript_slice then do
        let vs ← node_name_elems elts
        let strs ← as_str_list vs
        .ok (.leaf ("[" ++ String.intercalate ", " strs ++ "]"))
      else do
        let vs ← node_name_elems elts
        .ok (.tup vs)
  | .tupleE elts =>
      -- For a single-element tuple Python formats node.elts[0] with a
      -- trailing comma; for other lengths it joins the element results
      -- (join raises TypeError on a non-str element).  Both branches run
      -- node_name on the elements first, which is evaluation-equivalent.
      if subscript_slice then do
        let vs ← node_name_elems elts
        match vs with
        | [v] => .ok (.leaf ("(" ++ render v ++ ",)"))
        | _ => do
            let strs ← as_str_list vs
            .ok (.leaf ("(" ++ String.intercalate ", " strs ++ ")"))
      else do
        let vs ← node_name_elems elts
        .ok (.tup vs)
  | .starred value => do
      let v ← node_name value false
      .ok (.leaf ("*" ++ render v))
  | .sliceE lower upper step =>
      match lower, upper, step with
      | some l, some u, some s => do
          let lv ← node_name l false
          let uv ← node_name u false
          let sv ← node_name s false
          .ok (.leaf (render lv ++ ":" ++ render uv ++ ":" ++ render sv))
      | some l, some u, none => do
          let lv ← node_name l false
          let uv ← node_name u false
          .ok (.leaf (render lv ++ ":" ++ render uv))
      | some l, none, _ => do
          let lv ← node_name l false
          .ok (.leaf (render lv ++ ":"))
      | none, some u, _ => do
          let uv ← node_name u false
          .ok (.leaf (":" ++ render uv))
      | none, none, _ => .ok (.leaf ":")
  | .subscript value slice =>
      match node_name value false with
      | .error e => .error e
      | .ok v =>
        match node_name slice true with
        | .ok s => .ok (.leaf (render v ++ "[" ++ render s ++ "]"))
        | .error (.improperUse _) =>
            .error (.improperUse
              (node_name_err_msg (render v ++ "[" ++ ast_type_name slice ++ "]")))
        | .error e => .error e
  | .otherNode typeName => .error (.improperUse (node_name_err_msg typeName))
termination_by sizeOf node
decreasing_by all_goals (simp_wf <;> omega)

/-- node_name mapped over the elements of an ast.List / ast.Tuple, in
order, propagating the first error. -/
def node_name_elems : List AstExpr → Except PyErr (List NameTree)
  | [] => .ok []
  | e :: rest => do
      let v ← node_name e false
      let vs ← node_name_elems rest
      .ok (v :: vs)
termination_by l => sizeOf l
decreasing_by all_goals (simp_wf <;> omega)

end

/-- The assignment-like ast nodes accepted by lookfor_parent_assign
(ASSIGN_TYPES in src/varname/utils.py: ast.Assign, ast.AnnAssign,
ast.NamedExpr). -/
inductive AssignNode where
  | assign (targets : List AstExpr)
  | annAssign (target : AstExpr)
  | namedExpr (target : AstExpr)

/-- A node on the parent chain of the resolved call node: either an
assignment-like node or any other ast node (tag records its type). -/
inductive PNode where
  | assignNode (node : AssignNode)
  | other (tag : String)

/-- The isinstance(node, ASSIGN_TYPES) test as a partial projection. -/
def as_assign : PNode → Option AssignNode
  | .assignNode a => some a
  | .other _ => none

/-- lookfor_parent_assign from src/varname/utils.py, lines 176-186,
over the chain of parents of the call node (immediate parent first):
walk up; return the first assignment-like node; under strict, stop
after the immediate parent. -/
def lookfor_parent_assign : List PNode → Bool → Option AssignNode
  | [], _ => none
  | p :: rest, strict =>
    match p with
    | .assignNode a => some a
    | .other _ => if strict then none else lookfor_parent_assign rest strict

/-- Successful result of varname: a single name, or (multi_vars) the
tuple of names. -/
inductive VarnameValue where
  | single (name : NameTree)
  | multi (names : List NameTree)

/-- varname from src/varname/core.py, lines 101-148, starting from the
resolved call node (the frame-walking prefix is modelled separately by
get_frame below).  The input is the parent chain of the call node.  The
Bool component records whether a MultiTargetAssignmentWarning was
emitted. -/
def varname (chain : List PNode) (multi_vars : Bool) (strict : Bool) :
    Except PyErr VarnameValue × Bool :=
  match lookfor_parent_assign chain strict with
  | none =>
      (.error (.improperUse (if strict then
          "Caller does not assign the result directly to variable(s)."
        else "Expression is not part of an assignment.")), false)
  | some node =>
      let warned : Bool := match node with
        | .assign targets => targets.length > 1
        | _ => false
      let target? : Except PyErr AstExpr := match node with
        | .assign targets =>
            match pyGet targets (-1) with
            | some t => .ok t
            | none => .error .indexError
        | .annAssign t => .ok t
        | .namedExpr t => .ok t
      match target? with
      | .error e => (.error e, warned)
      | .ok target =>
        match node_name target false with
        | .error e => (.error e, warned)
        | .ok nm =>
          let names : List NameTree := match nm with
            | .tup xs => xs
            | x => [x]
          if multi_vars then (.ok (.multi names), warned)
          else if names.length > 1 then
            (.error (.improperUse
              ("Expect a single variable on left-hand side, got " ++
                toString names.length ++ ".")), warned)
          else match names.head? with
            | some n => (.ok (.single n), warned)
            | none => (.error .indexError, warned)


/-! ### argname (src/varname/core.py lines 320-478,
src/varname/utils.py lines 375-453) -/

/-- The Python ast nodes appearing as argument expressions of the call.
argnode_source only distinguishes Name, Attribute (by its attr) and
Constant (by the repr of its value); every other node is kept as a raw
ast node, here otherExpr with the type name. -/
inductive ArgExpr where
  | name (id : String)
  | attributeA (attr : String)
  | constantA (reprv : String)
  | otherExpr (typeName : String)

/-- An entry of the argument-source mapping (ArgSourceType of
src/varname/utils.py): a source string, a raw ast node, the tuple bound
to a variadic-positional parameter, or the mapping bound to a
variadic-keyword parameter. -/
inductive ArgSource where
  | src (s : String)
  | node (e : ArgExpr)
  | tup (xs : List ArgSource)
  | dict (entries : List (String × ArgSource))

/-- argnode_source from src/varname/utils.py, lines 375-413.  The
asttokens token-slice used when vars_only is False is host behaviour and
is supplied as the getText argument. -/
def argnode_source (getText : ArgExpr → String) (node : ArgExpr)
    (vars_only : Bool) : ArgSource :=
  match node with
  | .constantA reprv => .src reprv
  | _ =>
    if vars_only then
      match node with
      | .name id => .src id
      | .attributeA attr => .src attr
      | e => .node e
    else .src (getText node)

/-- The kinds of formal parameters of inspect.Parameter. -/
inductive ParamKind where
  | posOnly
  | posOrKw
  | varPos
  | kwOnly
  | varKw

/-- A formal parameter of the callee signature. -/
structure Param where
  pname : String
  kind : ParamKind

/-- First phase of CPython inspect.Signature.bind_partial (an external
stdlib routine the source calls): consume the positional arguments
against the parameter list in order; a variadic-positional parameter
collects the rest; too many positionals, a positional for a keyword-only
or variadic-keyword slot, or a positional also supplied by keyword raise
TypeError.  Returns the bindings and the remaining parameters. -/
def bind_posnl : List Param → List ArgSource →
    List (String × ArgSource) →
    Except PyErr (List (String × ArgSource) × List Param)
  | params, [], _ => .ok ([], params)
  | [], _ :: _, _ => .error .typeError
  | p :: params, a :: rest_args, kwargs =>
    match p.kind with
    | .varKw => .error .typeError
    | .kwOnly => .error .typeError
    | .varPos => .ok ([(p.pname, .tup (a :: rest_args))], params)
    | .posOnly => do
        let (bs, rem) ← bind_posnl params rest_args kwargs
        .ok ((p.pname, a) :: bs, rem)
    | .posOrKw =>
        if kwargs.any (fun kv => kv.1 == p.pname) then .error .typeError
        else do
          let (bs, rem) ← bind_posnl params rest_args kwargs
          .ok ((p.pname, a) :: bs, rem)

/-- Second phase of bind_partial: bind the keyword arguments against the
remaining parameters in parameter order; leftovers go to the
variadic-keyword parameter when one exists, otherwise TypeError. -/
def bind_kw : List Param → List (String × ArgSource) → Option String →
    Except PyErr (List (String × ArgSource))
  | [], kwargs, varkw? =>
    match kwargs, varkw? with
    | [], _ => .ok []
    | _ :: _, some n => .ok [(n, .dict kwargs)]
    | _ :: _, none => .error .typeError
  | p :: params, kwargs, varkw? =>
    match p.kind with
    | .varKw => bind_kw params kwargs (varkw? <|> some p.pname)
    | .varPos => bind_kw params kwargs varkw?
    | .posOnly =>
        if kwargs.any (fun kv => kv.1 == p.pname) then .error .typeError
        else bind_kw params kwargs varkw?
    | _ =>
      match kwargs.lookup p.pname with
      | some v => do
          let bs ← bind_kw params
            (kwargs.eraseP (fun kv => kv.1 == p.pname)) varkw?
          .ok ((p.pname, v) :: bs)
      | none => bind_kw params kwargs varkw?

/-- inspect.Signature.bind_partial, composed from the two phases. -/
def signature_bind (params : List Param) (args : List ArgSource)
    (kwargs : List (String × ArgSource)) :
    Except PyErr (List (String × ArgSource)) := do
  let (bs, rem) ← bind_posnl params args kwargs
  let ks ← bind_kw rem kwargs none
  .ok (bs ++ ks)

/-- The setdefault pass of get_argument_sources: give the
variadic-positional and variadic-keyword parameters empty collections
when nothing was bound to them (src/varname/utils.py, lines 446-452). -/
def set_variadic_defaults : List Param → List (String × ArgSource) →
    List (String × ArgSource)
  | [], acc => acc
  | p :: params, acc =>
    let acc := match p.kind with
      | .varPos =>
          if acc.any (fun kv => kv.1 == p.pname) then acc
          else acc ++ [(p.pname, .tup [])]
      | .varKw =>
          if acc.any (fun kv => kv.1 == p.pname) then acc
          else acc ++ [(p.pname, .dict [])]
      | _ => acc
    set_variadic_defaults params acc

/-- get_argument_sources from src/varname/utils.py, lines 416-453: map
the call arguments to sources, bind them against the signature, then
default the variadic parameters.  keywords entries with a none name model
**kwargs unpacking at the call site and are skipped, as in the source. -/
def get_argument_sources (getText : ArgExpr → String)
    (params : List Param) (args : List ArgExpr)
    (keywords : List (Option String × ArgExpr)) (vars_only : Bool) :
    Except PyErr (List (String × ArgSource)) := do
  let arg_sources := args.map
    (fun a => argnode_source getText a vars_only)
  let kwarg_sources := keywords.filterMap
    (fun kw => kw.1.map (fun n => (n, argnode_source getText kw.2 vars_only)))
  let bound ← signature_bind params arg_sources kwarg_sources
  .ok (set_variadic_defaults params bound)

/-- A word character of the regular expressions of argname (ASCII \w). -/
def isWordChar (c : Char) : Bool := c.isAlphanum || c == '_'

/-- The numeric value of a digit string, as int() computes it. -/
def py_digits_nat (cs : List Char) : Nat :=
  cs.foldl (fun n c => n * 10 + (c.toNat - 48)) 0

/-- The star alternative of the argname request syntax: *name with a
nonempty all-word-character name; anything else is a plain name. -/
def star_or_plain (farg : String) :
    String × Option (Nat ⊕ String) × Bool :=
  match farg.data with
  | '*' :: rest =>
    if rest.length > 0 && rest.all isWordChar then (⟨rest⟩, none, true)
    else (farg, none, false)
  | _ => (farg, none, false)

/-- Parsing of one requested argument of argname
(src/varname/core.py, lines 430-442): name[sub] (sub becomes an int when
it is all digits), *name, or a plain name.  The result is
(farg_name, subscript, star).  The name part is the maximal word-character
prefix, as the anchored greedy regular expression matches it. -/
def parse_farg (farg : String) :
    String × Option (Nat ⊕ String) × Bool :=
  let cs := farg.data
  let w := cs.takeWhile isWordChar
  let rest := cs.drop w.length
  match rest with
  | '[' :: more =>
    if w.length > 0 && more.length ≥ 2 && more.getLast? == some ']' then
      let mid := more.dropLast
      if mid.length > 0 && mid.all Char.isDigit then
        (⟨w⟩, some (.inl (py_digits_nat mid)), false)
      else (⟨w⟩, some (.inr ⟨mid⟩), false)
    else star_or_plain farg
  | _ => star_or_plain farg

/-- Python iteration of a value by out.extend(source) in argname: a
tuple extends with its elements, a mapping with its keys, a str with its
characters; anything else is a TypeError. -/
def py_extend (acc : List ArgSource) : ArgSource →
    Except PyErr (List ArgSource)
  | .tup xs => .ok (acc ++ xs)
  | .dict entries => .ok (acc ++ entries.map (fun kv => .src kv.1))
  | .src s => .ok (acc ++ s.data.map (fun c => .src c.toString))
  | .node _ => .error .typeError

/-- Result of argname: one source, or a tuple of sources. -/
inductive ArgnameValue where
  | single (v : ArgSource)
  | multi (vs : List ArgSource)

/-- The per-argument loop of argname (src/varname/core.py, lines
426-472), returning the final star flag and the collected outputs.  The
star flag persists across iterations as in the source (a function-scoped
variable). -/
def argname_loop (sources : List (String × ArgSource))
    (func_qualname : String) :
    List String → Bool → List ArgSource →
    Except PyErr (Bool × List ArgSource)
  | [], star, acc => .ok (star, acc)
  | farg :: fargs, star, acc =>
    let (farg_name, sub, star2) := parse_farg farg
    let star := star || star2
    match sources.lookup farg_name with
    | none => .error (.improperUse
        (pyq ++ farg_name ++ pyq ++ " is not a valid argument of " ++
          pyq ++ func_qualname ++ pyq ++ "."))
    | some source =>
      match source with
      | .node _ => .error (.improperUse
          "Argument is not a variable or an attribute.")
      | _ =>
        match sub with
        | some (.inl i) =>
          match source with
          | .tup xs =>
            match xs.get? i with
            | some v => argname_loop sources func_qualname fargs star (acc ++ [v])
            | none => .error .indexError
          | _ => .error (.improperUse
              ("`" ++ farg_name ++ "` is not a positional argument."))
        | some (.inr k) =>
          match source with
          | .dict entries =>
            match entries.lookup k with
            | some v => argname_loop sources func_qualname fargs star (acc ++ [v])
            | none => .error (.keyError k)
          | _ => .error (.improperUse
              ("`" ++ farg_name ++ "` is not a keyword argument."))
        | none =>
          if star then
            match py_extend acc source with
            | .ok acc2 => argname_loop sources func_qualname fargs star acc2
            | .error e => .error e
          else argname_loop sources func_qualname fargs star (acc ++ [source])

/-- argname from src/varname/core.py, lines 320-478, from the resolved
call node and callee signature onward (frame and callee resolution are
runtime-host steps).  Any exception from get_argument_sources is
converted to VarnameRetrievingError as in the source; the final result
is a single source unless several arguments were requested or a star
request occurred. -/
def argname (params : List Param) (args : List ArgExpr)
    (keywords : List (Option String × ArgExpr))
    (getText : ArgExpr → String) (func_qualname : String)
    (arg : String) (more_args : List String) (vars_only : Bool) :
    Except PyErr ArgnameValue :=
  match get_argument_sources getText params args keywords vars_only with
  | .error _ => .error
      (.varnameRetrieving "Have you specified the right frame?")
  | .ok argument_sources =>
    match argname_loop argument_sources func_qualname
        (arg :: more_args) false [] with
    | .error e => .error e
    | .ok (star, out) =>
      if more_args.isEmpty && !star then
        match out.head? with
        | some v => .ok (.single v)
        | none => .error .indexError
      else .ok (.multi out)

/-- Bool test used to state that a result is an ImproperUseError. -/
def is_improper_use : Except PyErr ArgnameValue → Bool
  | .error (.improperUse _) => true
  | _ => false


/-! ### The frame-ignoring system (src/varname/ignore.py) -/

/-- The fields of an inspect.FrameInfo used by the modelled code: the
source file of the code object, and the function name and line used by
the debug messages. -/
structure FrameInfo where
  filename : String
  function : String
  lineno : Nat

/-- str.startswith modelled on the character sequences. -/
def py_str_startswith (s pre : String) : Bool :=
  pre.data.isPrefixOf s.data

/-- str.endswith modelled on the character sequences. -/
def py_str_endswith (s suf : String) : Bool :=
  suf.data.isSuffixOf s.data

/-- IgnoreDirname.match from src/varname/ignore.py, lines 114-129: append
the path separator when missing, then test whether the real path of the
frame file starts with the real path of the directory.  os.path.realpath
is host behaviour and is passed in; os.path.sep is "/" here. -/
def IgnoreDirname_match (realpath : String → String)
    (ignore co_filename : String) : Bool :=
  let d := if py_str_endswith ignore "/" then ignore else ignore ++ "/"
  py_str_startswith (realpath co_filename) (realpath d)

/-- An element of the ignore list as consumed by nextframe_to_check:
every rule kind exposes its repr text and its frame predicate (the
predicates of the individual rule classes are host-dependent and are
supplied as functions); an IgnoreDecorated rule additionally carries the
decorator count that controls the advance. -/
inductive IgnoreElem where
  | plain (rep : String) (matchp : Nat → List FrameInfo → Bool)
  | decorated (rep : String) (matchp : Nat → List FrameInfo → Bool)
      (ndecor : Nat)

/-- The repr of an ignore element. -/
def IgnoreElem.rep : IgnoreElem → String
  | .plain r _ => r
  | .decorated r _ _ => r

/-- The match test of an ignore element. -/
def IgnoreElem.matchFrame : IgnoreElem → Nat → List FrameInfo → Bool
  | .plain _ m, i, fs => m i fs
  | .decorated _ m _, i, fs => m i fs

/-- debug_ignore_frame from src/varname/ignore.py, lines 48-62 (the copy
in src/varname/utils.py, lines 358-372, has the same behaviour): when the
global config.debug toggle is off nothing is written; otherwise one
diagnostic line goes to the stderr side channel, returned here as the
written lines. -/
def debug_ignore_frame (debug : Bool) (msg : String)
    (frameinfo : Option FrameInfo) : List String :=
  if !debug then []
  else
    let m := match frameinfo with
      | some fi => msg ++ " [In " ++ fi.function ++ " at " ++
          fi.filename ++ ":" ++ toString fi.lineno ++ "]"
      | none => msg
    ["[varname.ignore] DEBUG: " ++ m]

/-- IgnoreList.nextframe_to_check from src/varname/ignore.py, lines
332-359: test the rules in order; the first match decides the advance
(ndecor + 1 for a decorated rule, otherwise 1); 0 when no rule matched.
The second component is the debug output. -/
def nextframe_to_check (debug : Bool) (ignore_list : List IgnoreElem)
    (frame_no : Nat) (frames : List FrameInfo) : Nat × List String :=
  match ignore_list with
  | [] => (0, [])
  | e :: rest =>
    if e.matchFrame frame_no frames then
      match e with
      | .decorated _ _ nd =>
          (nd + 1, debug_ignore_frame debug ("Ignored by " ++ e.rep)
            (frames.get? frame_no))
      | .plain _ _ =>
          (1, debug_ignore_frame debug ("Ignored by " ++ e.rep)
            (frames.get? frame_no))
    else nextframe_to_check debug rest frame_no frames

/-- The while loop of IgnoreList.get_frame (src/varname/ignore.py, lines
379-395): i indexes the outer-frame list; a matched rule advances i by
the rule amount, otherwise the wanted-frames counter decrements and the
frame is returned when the counter reaches zero.  When the loop exhausts
the frame list, the Python function falls off the loop and returns None
(the none result); no exception is raised on that path.  The second
component is the debug output. -/
def get_frame_loop (debug : Bool) (ignore_list : List IgnoreElem)
    (frames : List FrameInfo) (i : Nat) (frame_no : Int) :
    Option FrameInfo × List String :=
  if h : i < frames.length then
    match nextframe_to_check debug ignore_list i frames with
    | (nfn, nflog) =>
      if _hpos : nfn > 0 then
        let r := get_frame_loop debug ignore_list frames (i + nfn) frame_no
        (r.1, nflog ++ r.2)
      else
        let frame_no := frame_no - 1
        if frame_no == 0 then
          (some (frames.get ⟨i, h⟩),
           nflog ++ debug_ignore_frame debug "Gotcha!" (frames.get? i))
        else
          let log := debug_ignore_frame debug
            ("Skipping (" ++ toString (frame_no - 1) ++ " more to skip)")
            (frames.get? i)
          let r := get_frame_loop debug ignore_list frames (i + 1) frame_no
          (r.1, nflog ++ log ++ r.2)
  else (none, [])
termination_by frames.length - i
decreasing_by all_goals (simp_wf; omega)

/-- IgnoreList.get_frame from src/varname/ignore.py, lines 361-399, over
the outer-frame list produced by inspect.getouterframes: run the walk
from index 0.  The surrounding try/except converts exceptions raised
during the walk into VarnameRetrievingError, but the exhaustion path
raises nothing and yields Python None. -/
def get_frame (debug : Bool) (ignore_list : List IgnoreElem)
    (frames : List FrameInfo) (frame_no : Int) :
    Option FrameInfo × List String :=
  get_frame_loop debug ignore_list frames 0 frame_no

/-! ### Qualified-name uniqueness (src/varname/ignore.py lines 167-200,
src/varname/utils.py lines 342-355) -/

/-- IgnoreModuleQualname._check_qualname_by_source from
src/varname/ignore.py, lines 189-200 (check_qualname_by_source in
src/varname/utils.py, lines 342-355, performs the same check): without a
parsed source tree the check is skipped; a qualname occurring more than
once among the qualnames of the module raises QualnameNonUniqueError.
tree tells whether source.tree is available and qualnames lists
source._qualnames.values(). -/
def check_qualname_by_source (tree : Bool) (qualnames : List String)
    (modname qualname : String) : Except PyErr Unit :=
  if !tree then .ok ()
  else if qualnames.count qualname > 1 then
    .error (.qualnameNonUnique
      ("Qualname " ++ pyq ++ qualname ++ pyq ++ " in " ++ pyq ++ modname ++
        pyq ++ " refers to multiple objects."))
  else .ok ()

/-- Construction of the IgnoreModuleQualname rule
(src/varname/ignore.py, lines 167-181): when the module has a source
file, the qualname uniqueness check runs during construction, so an
ambiguous rule raises before it could ever match a frame.  The returned
Bool is the qname_checked flag of the constructed rule. -/
def IgnoreModuleQualname_init (modfile : Bool) (tree : Bool)
    (qualnames : List String) (modname qualname : String) :
    Except PyErr Bool :=
  if modfile then
    match check_qualname_by_source tree qualnames modname qualname with
    | .error e => .error e
    | .ok _ => .ok true
  else .ok false

/-! ### The instruction-stream fallback
(src/varname/utils.py lines 247-309) -/

/-- One entry of dis.get_instructions: the byte offset, the opname and
the argrepr (the symbolic operand text). -/
structure Instr where
  offset : Nat
  opname : String
  argrepr : String

/-- Python str.isidentifier restricted to ASCII: a nonempty string of
word characters that does not start with a digit. -/
def py_isidentifier (s : String) : Bool :=
  match s.data with
  | [] => false
  | c :: rest => (c.isAlpha || c == '_') &&
      rest.all (fun d => d.isAlphanum || d == '_')

/-- The instructions whose offset equals the frame offset, with their
indexes: the tuple unpacking in bytecode_nameof requires exactly one,
otherwise Python raises ValueError. -/
def find_offset_matches (instrs : List Instr) (offset : Nat) :
    List (Nat × Instr) :=
  instrs.enum.filter (fun p => p.2.offset == offset)

/-- The backward skipping loops of bytecode_nameof: starting at index i
(Python indexing, so a negative index wraps once from the back), step
back while the instruction opname is in the skip set; an index out of
range is the Python IndexError. -/
def skip_while (instrs : List Instr) (skipset : List String) (i : Int) :
    Except PyErr (Int × Instr) :=
  match h : pyGet instrs i with
  | none => .error .indexError
  | some ins =>
    if skipset.contains ins.opname then
      skip_while instrs skipset (i - 1)
    else .ok (i, ins)
termination_by (i + instrs.length + 1).toNat
decreasing_by
  have hbound : -(instrs.length : Int) ≤ i := by
    by_cases hi : i < 0
    · simp only [pyGet, hi, if_true] at h
      split at h
      · omega
      · exact absurd h (by simp)
    · omega
  omega

/-- The error message shared by the unpacked-call and keyword-call
rejections of bytecode_nameof. -/
def pos_only_msg : String :=
  pyq ++ "nameof" ++ pyq ++
  " can only be called with a single positional argument " ++
  "when source code is not avaiable."

/-- The opnames accepted as a plain call instruction by bytecode_nameof
(src/varname/utils.py, lines 281-287). -/
def plain_call_opnames : List String :=
  ["CALL_FUNCTION", "CALL_METHOD", "CALL", "CALL_KW"]

/-- The tail of bytecode_nameof (src/varname/utils.py, lines 295-309):
given the located name-loading instruction, reject KW_NAMES/LOAD_CONST
(keyword call), require a LOAD_ opname, require the argrepr to be a
valid identifier, and return the argrepr. -/
def bytecode_name_check (name_instr : Instr) : Except PyErr String :=
  if name_instr.opname == "KW_NAMES" ||
      name_instr.opname == "LOAD_CONST" then
    .error (.varnameRetrieving pos_only_msg)
  else if !(py_str_startswith name_instr.opname "LOAD_") then
    .error (.varnameRetrieving "Argument must be a variable or attribute")
  else if !(py_isidentifier name_instr.argrepr) then
    .error (.varnameRetrieving
      ("Found the variable name " ++ pyq ++ name_instr.argrepr ++
        pyq ++ " which is obviously wrong. " ++
        "This may happen if you are using some other AST magic " ++
        "at the same time, such as pytest, ipython, macropy, " ++
        "or birdseye."))
  else .ok name_instr.argrepr

/-- bytecode_nameof from src/varname/utils.py, lines 247-309, over the
instruction stream of the code object: locate the instruction at the
frame offset (the tuple unpacking raises ValueError unless exactly one
matches), skip CACHE placeholders backwards, reject
CALL_FUNCTION_EX/CALL_FUNCTION_KW, require a plain call opname, step
back over CACHE/PRECALL to the name-loading instruction and run the
final checks of bytecode_name_check on it. -/
def bytecode_nameof (instrs : List Instr) (offset : Nat) :
    Except PyErr String :=
  match find_offset_matches instrs offset with
  | [(idx, _)] =>
    (match skip_while instrs ["CACHE"] (idx : Int) with
     | .error e => .error e
     | .ok (idx2, cur) =>
       if cur.opname == "CALL_FUNCTION_EX" ||
           cur.opname == "CALL_FUNCTION_KW" then
         .error (.varnameRetrieving pos_only_msg)
       else if !(plain_call_opnames.contains cur.opname) then
         .error (.varnameRetrieving "Did you call nameof in a weird way?")
       else
         match skip_while instrs ["CACHE", "PRECALL"] (idx2 - 1) with
         | .error e => .error e
         | .ok (_, name_instr) => bytecode_name_check name_instr)
  | _ => .error .valueError

/-! ### Theorems about the claims -/

/-- C2: for a single-target assignment x = f(...) with a plain variable
target, varname with default options (multi_vars false, strict true)
returns the string x, with no multi-target warning. -/
theorem varname_single_assign (x : String) :
    varname [.assignNode (.assign [.name x])] false true
      = (.ok (.single (.leaf x)), false) := by
  simp [varname, lookfor_parent_assign, node_name, pyGet]

/-- C1: for a chained assignment a = b = f(...), varname returns exactly
one of the two target names, the rightmost one (node.targets[-1], the
documented tie-break), and emits the MultiTargetAssignmentWarning (the
Bool component); it neither returns both names nor raises. -/
theorem varname_chained_assign_rightmost (a b : String) :
    varname [.assignNode (.assign [.name a, .name b])] false true
      = (.ok (.single (.leaf b)), true) := by
  simp [varname, lookfor_parent_assign, node_name, pyGet]

/-- C3: under strict, lookfor_parent_assign inspects only the immediate
parent of the call node (result is as_assign of the chain head); under
lenient it returns the first assignment-like node of the whole chain;
and whenever the lookup yields none, varname fails with
ImproperUseError. -/
theorem lookfor_parent_assign_strict_lenient :
    (∀ (p : PNode) (rest : List PNode),
        lookfor_parent_assign (p :: rest) true = as_assign p)
    ∧ (∀ chain : List PNode,
        lookfor_parent_assign chain false = chain.findSome? as_assign)
    ∧ (∀ (chain : List PNode) (multi_vars strict : Bool),
        lookfor_parent_assign chain strict = none →
        ∃ msg, (varname chain multi_vars strict).1
          = .error (.improperUse msg)) := by
  refine ⟨?_, ?_, ?_⟩
  · intro p rest
    cases p <;> simp [lookfor_parent_assign, as_assign]
  · intro chain
    induction chain with
    | nil => simp [lookfor_parent_assign]
    | cons p rest ih =>
      cases p <;> simp [lookfor_parent_assign, as_assign, List.findSome?, ih]
  · intro chain multi_vars strict h
    refine ⟨if strict then
        "Caller does not assign the result directly to variable(s)."
      else "Expression is not part of an assignment.", ?_⟩
    simp [varname, h]

/-- Witness for C3: a call whose immediate parent is not an assignment,
under strict, yields no assignment and varname raises ImproperUseError. -/
theorem lookfor_parent_assign_strict_lenient_witness :
    lookfor_parent_assign [PNode.other "Expr"] true = none
    ∧ ∃ msg, (varname [PNode.other "Expr"] false true).1
        = .error (.improperUse msg) :=
  ⟨by simp [lookfor_parent_assign],
   lookfor_parent_assign_strict_lenient.2.2 [PNode.other "Expr"] false true
     (by simp [lookfor_parent_assign])⟩

/-- C10: every successful varname call with multi_vars true returns a
tuple of names, never a bare string; in particular a single-target
assignment x = f(...) yields the one-element tuple. -/
theorem varname_multi_vars_always_tuple :
    (∀ (chain : List PNode) (strict : Bool) (v : VarnameValue)
        (warned : Bool),
        varname chain true strict = (.ok v, warned) →
        ∃ names, v = .multi names)
    ∧ (∀ x : String,
        varname [.assignNode (.assign [.name x])] true true
          = (.ok (.multi [.leaf x]), false)) := by
  constructor
  · intro chain strict v warned h
    unfold varname at h
    repeat' split at h
    all_goals (try simp_all)
    all_goals (repeat' split at h)
    all_goals (try simp_all)
    all_goals (obtain ⟨h1, h2⟩ := h; exact ⟨_, h1.symm⟩)
  · intro x
    simp [varname, lookfor_parent_assign, node_name, pyGet]

/-- Witness for C10: the general part applied at a concrete single-target
assignment. -/
theorem varname_multi_vars_always_tuple_witness :
    ∃ names, VarnameValue.multi [NameTree.leaf "x"]
      = VarnameValue.multi names :=
  varname_multi_vars_always_tuple.1
    [.assignNode (.assign [.name "x"])] true (.multi [.leaf "x"]) false
    (by simp [varname, lookfor_parent_assign, node_name, pyGet])

/-- Counterexample for C4: for func(*args, **kwargs) called as
func(x, y, kw=z), requesting args[5] does not fail with the ImproperUse
error kind; the out-of-range tuple lookup escapes as a plain IndexError. -/
theorem argname_args5_not_improper_use_cex :
    argname [⟨"args", .varPos⟩, ⟨"kwargs", .varKw⟩]
        [.name "x", .name "y"] [(some "kw", .name "z")]
        (fun _ => "") "func" "args[5]" [] true
      = .error .indexError
    ∧ is_improper_use (argname [⟨"args", .varPos⟩, ⟨"kwargs", .varKw⟩]
        [.name "x", .name "y"] [(some "kw", .name "z")]
        (fun _ => "") "func" "args[5]" [] true) = false :=
  ⟨rfl, rfl⟩

/-- C4 (amended): for func(*args, **kwargs) called as func(x, y, kw=z),
the argument-source mapping binds args to the tuple (x, y) and kwargs to
the mapping from kw to z, and requesting args[1] returns y; requesting
the out-of-range subscript args[5] fails, but with an uncaught plain
IndexError from the tuple indexing, not with the ImproperUse error
kind. -/
theorem argname_star_args_binding (g : ArgExpr → String)
    (x y z fq : String) :
    get_argument_sources g [⟨"args", .varPos⟩, ⟨"kwargs", .varKw⟩]
        [.name x, .name y] [(some "kw", .name z)] true
      = .ok [("args", .tup [.src x, .src y]),
             ("kwargs", .dict [("kw", .src z)])]
    ∧ argname [⟨"args", .varPos⟩, ⟨"kwargs", .varKw⟩] [.name x, .name y]
        [(some "kw", .name z)] g fq "args[1]" [] true
      = .ok (.single (.src y))
    ∧ argname [⟨"args", .varPos⟩, ⟨"kwargs", .varKw⟩] [.name x, .name y]
        [(some "kw", .name z)] g fq "args[5]" [] true
      = .error .indexError :=
  ⟨rfl, rfl, rfl⟩

/-- C5: for a qualified-name ignore rule scoped to a module whose source
is available (module file and parsed tree present), a qualname occurring
more than once among the definitions of the module makes the rule
construction raise QualnameNonUniqueError, so the rule never matches any
frame. -/
theorem qualname_ambiguous_raises (qualnames : List String)
    (modname qualname : String)
    (hdup : qualnames.count qualname > 1) :
    IgnoreModuleQualname_init true true qualnames modname qualname
      = .error (.qualnameNonUnique
          ("Qualname " ++ pyq ++ qualname ++ pyq ++ " in " ++ pyq ++
            modname ++ pyq ++ " refers to multiple objects.")) := by
  simp [IgnoreModuleQualname_init, check_qualname_by_source, hdup]

/-- Witness for C5: the qualname f occurs twice in the module. -/
theorem qualname_ambiguous_raises_witness :
    (["f", "g", "f"].count "f" > 1)
    ∧ IgnoreModuleQualname_init true true ["f", "g", "f"] "mod" "f"
      = .error (.qualnameNonUnique
          ("Qualname " ++ pyq ++ "f" ++ pyq ++ " in " ++ pyq ++
            "mod" ++ pyq ++ " refers to multiple objects.")) :=
  ⟨by decide, qualname_ambiguous_raises ["f", "g", "f"] "mod" "f" (by decide)⟩

/-- C6 (evidence for the code bug): on a three-frame stack with no
ignore rules, requesting logical depth 5 exhausts the walk and
IgnoreList.get_frame returns Python None instead of raising
VarnameRetrievingError; requesting depth 2 on the same stack returns a
frame, showing the walk itself works. -/
theorem get_frame_exhaustion_returns_none :
    get_frame false [] [⟨"a.py", "fa", 1⟩, ⟨"b.py", "fb", 2⟩,
        ⟨"c.py", "fc", 3⟩] 5 = (none, [])
    ∧ get_frame false [] [⟨"a.py", "fa", 1⟩, ⟨"b.py", "fb", 2⟩,
        ⟨"c.py", "fc", 3⟩] 2 = (some ⟨"b.py", "fb", 2⟩, []) := by
  constructor <;>
    simp [get_frame, get_frame_loop, nextframe_to_check, debug_ignore_frame]

/-- Counterexample for C7: with canonical paths, the directory rule for
the standard-library directory does match a frame whose file lives in
the site-packages sub-tree nested inside it, although the claim says
such frames must not match. -/
theorem ignore_dirname_site_packages_cex :
    IgnoreDirname_match id "/usr/lib/python3.9"
      "/usr/lib/python3.9/site-packages/requests/api.py" = true := rfl

/-- C7 (amended): with canonical paths, the directory ignore rule
matches every frame whose source file is nested under the given
directory, with no exception for the third-party site-packages sub-tree
nested inside it (the rule has no such exclusion). -/
theorem ignore_dirname_matches_nested (dir rest : String) :
    IgnoreDirname_match id dir
        ((if py_str_endswith dir "/" then dir else dir ++ "/") ++ rest)
      = true
    ∧ IgnoreDirname_match id dir
        ((if py_str_endswith dir "/" then dir else dir ++ "/")
          ++ "site-packages/" ++ rest) = true := by
  constructor <;>
  · unfold IgnoreDirname_match
    by_cases hd : py_str_endswith dir "/" <;>
      simp [hd, py_str_startswith]

/-- The advance computed by nextframe_to_check does not depend on the
debug toggle. -/
theorem nextframe_to_check_fst (d : Bool) (il : List IgnoreElem)
    (i : Nat) (fs : List FrameInfo) :
    (nextframe_to_check d il i fs).1
      = (nextframe_to_check false il i fs).1 := by
  induction il with
  | nil => rfl
  | cons e rest ih =>
    cases e with
    | plain r m =>
      by_cases hm : m i fs <;>
        simp [nextframe_to_check, IgnoreElem.matchFrame, hm, ih]
    | decorated r m nd =>
      by_cases hm : m i fs <;>
        simp [nextframe_to_check, IgnoreElem.matchFrame, hm, ih]

/-- With the debug toggle off, nextframe_to_check writes nothing. -/
theorem nextframe_to_check_log_off (il : List IgnoreElem) (i : Nat)
    (fs : List FrameInfo) :
    (nextframe_to_check false il i fs).2 = [] := by
  induction il with
  | nil => rfl
  | cons e rest ih =>
    cases e with
    | plain r m =>
      by_cases hm : m i fs <;>
        simp [nextframe_to_check, IgnoreElem.matchFrame, hm, ih,
          debug_ignore_frame]
    | decorated r m nd =>
      by_cases hm : m i fs <;>
        simp [nextframe_to_check, IgnoreElem.matchFrame, hm, ih,
          debug_ignore_frame]

/-- The frame selected by the walk loop does not depend on the debug
toggle, and with debug off the loop writes nothing. -/
theorem get_frame_loop_debug_indep (d : Bool) (il : List IgnoreElem)
    (frames : List FrameInfo) :
    ∀ k i n, frames.length - i ≤ k →
      (get_frame_loop d il frames i n).1
        = (get_frame_loop false il frames i n).1
      ∧ (get_frame_loop false il frames i n).2 = [] := by
  intro k
  induction k with
  | zero =>
    intro i n hk
    have hni : ¬ i < frames.length := by omega
    unfold get_frame_loop
    simp [hni]
  | succ k ih =>
    intro i n hk
    by_cases hlt : i < frames.length
    · unfold get_frame_loop
      rcases hEd : nextframe_to_check d il i frames with ⟨nd, ld⟩
      rcases hEf : nextframe_to_check false il i frames with ⟨n0, l0⟩
      have hnn : nd = n0 := by
        have h1 := nextframe_to_check_fst d il i frames
        rw [hEd, hEf] at h1; exact h1
      have hl0 : l0 = [] := by
        have h2 := nextframe_to_check_log_off il i frames
        rw [hEf] at h2; exact h2
      subst hnn
      subst hl0
      simp only [hEd, hEf, hlt, dif_pos]
      by_cases hp : nd > 0
      · simp only [hp, dif_pos]
        have hrec := ih (i + nd) n (by omega)
        simp [hrec.1, hrec.2]
      · simp only [hp, dif_neg]
        by_cases hz : (n - 1) == 0
        · simp [hz, debug_ignore_frame]
        · have hrec := ih (i + 1) (n - 1) (by omega)
          simp [hz, debug_ignore_frame, hrec.1, hrec.2]
    · unfold get_frame_loop
      simp [hlt]

/-- C9: the frame-resolution walk is noninterferent with respect to the
process-wide debug toggle: the selected frame is identical for any two
settings of the toggle, and with the toggle off nothing is written to
the diagnostic side channel.  config.debug is read only by
debug_ignore_frame, whose output is the log component here. -/
theorem get_frame_debug_noninterference (d1 d2 : Bool)
    (il : List IgnoreElem) (frames : List FrameInfo) (n : Int) :
    (get_frame d1 il frames n).1 = (get_frame d2 il frames n).1
    ∧ (get_frame false il frames n).2 = [] := by
  have h1 := get_frame_loop_debug_indep d1 il frames frames.length 0 n
    (by omega)
  have h2 := get_frame_loop_debug_indep d2 il frames frames.length 0 n
    (by omega)
  exact ⟨h1.1.trans h2.1.symm, h1.2⟩

/-- pyGet at a nonnegative index is plain list lookup. -/
theorem pyGet_natCast (l : List α) (i : Nat) :
    pyGet l (i : Int) = l.get? i := by
  have h1 : ¬ ((i : Int) < 0) := by omega
  simp [pyGet, h1]

/-- pyGet at the in-range negative index pos - length wraps to pos. -/
theorem pyGet_neg (l : List α) (pos : Nat) (h : pos < l.length) :
    pyGet l ((pos : Int) - l.length) = l.get? pos := by
  have hneg : (pos : Int) - l.length < 0 := by omega
  simp only [pyGet, hneg, if_pos]
  have h2 : (l.length : Int) + ((pos : Int) - l.length) = (pos : Int) := by
    ring
  rw [h2]
  have h3 : (0 : Int) ≤ (pos : Int) := by omega
  simp [h3]

/-- One unfolding of the backward skipping loop at an index where the
lookup succeeds. -/
theorem skip_while_step (instrs : List Instr) (skipset : List String)
    (i : Int) (ins : Instr) (hg : pyGet instrs i = some ins) :
    skip_while instrs skipset i =
      if skipset.contains ins.opname then skip_while instrs skipset (i - 1)
      else .ok (i, ins) := by
  rw [skip_while.eq_def]
  split
  · rename_i h; rw [hg] at h; exact absurd h (by simp)
  · rename_i ins2 h; rw [hg] at h
    cases h
    rfl

/-- The final checks of bytecode_nameof either raise
VarnameRetrievingError or return the argrepr, and a returned name is a
valid identifier loaded by a LOAD_ instruction other than
KW_NAMES/LOAD_CONST. -/
theorem bytecode_name_check_shape (name_instr : Instr) :
    ((∃ msg, bytecode_name_check name_instr
        = .error (.varnameRetrieving msg))
      ∨ (∃ nm, bytecode_name_check name_instr = .ok nm))
    ∧ (∀ nm, bytecode_name_check name_instr = .ok nm →
        py_isidentifier nm = true
        ∧ py_str_startswith name_instr.opname "LOAD_" = true
        ∧ name_instr.opname ≠ "KW_NAMES"
        ∧ name_instr.opname ≠ "LOAD_CONST"
        ∧ name_instr.argrepr = nm) := by
  by_cases h1 : (name_instr.opname == "KW_NAMES" ||
      name_instr.opname == "LOAD_CONST") = true
  · have hcheck : bytecode_name_check name_instr
        = .error (.varnameRetrieving pos_only_msg) := by
      unfold bytecode_name_check
      simp [h1]
    refine ⟨.inl ⟨_, hcheck⟩, ?_⟩
    intro nm hnm
    rw [hcheck] at hnm
    exact absurd hnm (by simp)
  · by_cases h2 : py_str_startswith name_instr.opname "LOAD_" = true
    · by_cases h3 : py_isidentifier name_instr.argrepr = true
      · have hcheck : bytecode_name_check name_instr
            = .ok name_instr.argrepr := by
          unfold bytecode_name_check
          simp [h1, h2, h3]
        refine ⟨.inr ⟨_, hcheck⟩, ?_⟩
        intro nm hnm
        rw [hcheck] at hnm
        have harg : name_instr.argrepr = nm := by simpa using hnm
        subst harg
        refine ⟨h3, h2, ?_, ?_, rfl⟩ <;> intro heq <;>
          rw [heq] at h1 <;> simp at h1
      · have hcheck : ∃ msg, bytecode_name_check name_instr
            = .error (.varnameRetrieving msg) := by
          unfold bytecode_name_check
          simp [h1, h2, h3]
        obtain ⟨msg, hcheck⟩ := hcheck
        refine ⟨.inl ⟨_, hcheck⟩, ?_⟩
        intro nm hnm
        rw [hcheck] at hnm
        exact absurd hnm (by simp)
    · have hcheck : ∃ msg, bytecode_name_check name_instr
          = .error (.varnameRetrieving msg) := by
        unfold bytecode_name_check
        simp [h1, h2]
      obtain ⟨msg, hcheck⟩ := hcheck
      refine ⟨.inl ⟨_, hcheck⟩, ?_⟩
      intro nm hnm
      rw [hcheck] at hnm
      exact absurd hnm (by simp)

/-- Started at a valid nonnegative index, the backward skip never hits
the IndexError case when the first instruction of the stream is not in
the skip set: it stops at some nonnegative index holding an instruction
outside the skip set. -/
theorem skip_while_from_nat (instrs : List Instr) (skipset : List String)
    (h0 : ∀ f, instrs.head? = some f → skipset.contains f.opname = false) :
    ∀ i : Nat, i < instrs.length →
    ∃ (jn : Nat) (ins : Instr),
      skip_while instrs skipset (i : Int) = .ok ((jn : Int), ins)
      ∧ jn ≤ i ∧ instrs.get? jn = some ins
      ∧ skipset.contains ins.opname = false := by
  intro i
  induction i with
  | zero =>
    intro hi
    obtain ⟨f, hf⟩ : ∃ f, instrs.head? = some f := by
      cases instrs with
      | nil => simp at hi
      | cons a l => exact ⟨a, rfl⟩
    have hg0 : instrs.get? 0 = some f := by
      cases instrs with
      | nil => simp at hf
      | cons a l => simpa using hf
    have hg : pyGet instrs ((0 : Nat) : Int) = some f := by
      rw [pyGet_natCast]; exact hg0
    have hns := h0 f hf
    rw [skip_while_step instrs skipset _ f hg, hns]
    exact ⟨0, f, by simp, Nat.le_refl 0, hg0, hns⟩
  | succ k ih =>
    intro hi
    have hg0 : instrs.get? (k + 1) = some (instrs.get ⟨k + 1, hi⟩) :=
      List.get?_eq_get hi
    have hpg : pyGet instrs ((k + 1 : Nat) : Int)
        = some (instrs.get ⟨k + 1, hi⟩) := by
      rw [pyGet_natCast]; exact hg0
    rw [skip_while_step instrs skipset _ _ hpg]
    by_cases hc : skipset.contains (instrs.get ⟨k + 1, hi⟩).opname = true
    · rw [if_pos hc]
      have hcast : ((k + 1 : Nat) : Int) - 1 = ((k : Nat) : Int) := by
        push_cast; ring
      rw [hcast]
      obtain ⟨jn, ins2, h1, h2, h3, h4⟩ := ih (by omega)
      exact ⟨jn, ins2, h1, by omega, h3, h4⟩
    · rw [if_neg hc]
      exact ⟨k + 1, instrs.get ⟨k + 1, hi⟩, rfl, Nat.le_refl _, hg0,
        by simpa using hc⟩

/-- Started at an in-range negative index (after the single Python
wrap-around), the backward skip also stops before running out when the
first instruction of the stream is not in the skip set. -/
theorem skip_while_from_neg (instrs : List Instr) (skipset : List String)
    (h0 : ∀ f, instrs.head? = some f → skipset.contains f.opname = false) :
    ∀ pos : Nat, pos < instrs.length →
    ∃ (j : Int) (ins : Instr),
      skip_while instrs skipset ((pos : Int) - instrs.length)
        = .ok (j, ins)
      ∧ skipset.contains ins.opname = false := by
  intro pos
  induction pos with
  | zero =>
    intro hi
    obtain ⟨f, hf⟩ : ∃ f, instrs.head? = some f := by
      cases instrs with
      | nil => simp at hi
      | cons a l => exact ⟨a, rfl⟩
    have hg0 : instrs.get? 0 = some f := by
      cases instrs with
      | nil => simp at hf
      | cons a l => simpa using hf
    have hg : pyGet instrs (((0 : Nat) : Int) - instrs.length)
        = some f := by
      rw [pyGet_neg instrs 0 hi]; exact hg0
    have hns := h0 f hf
    rw [skip_while_step instrs skipset _ f hg, hns]
    exact ⟨_, f, rfl, hns⟩
  | succ k ih =>
    intro hi
    have hg0 : instrs.get? (k + 1) = some (instrs.get ⟨k + 1, hi⟩) :=
      List.get?_eq_get hi
    have hpg : pyGet instrs (((k + 1 : Nat) : Int) - instrs.length)
        = some (instrs.get ⟨k + 1, hi⟩) := by
      rw [pyGet_neg instrs (k + 1) hi]; exact hg0
    rw [skip_while_step instrs skipset _ _ hpg]
    by_cases hc : skipset.contains (instrs.get ⟨k + 1, hi⟩).opname = true
    · rw [if_pos hc]
      have hcast : (((k + 1 : Nat) : Int) - instrs.length) - 1
          = ((k : Nat) : Int) - instrs.length := by push_cast; ring
      rw [hcast]
      obtain ⟨j, ins2, h1, h2⟩ := ih (by omega)
      exact ⟨j, ins2, h1, h2⟩
    · rw [if_neg hc]
      exact ⟨_, instrs.get ⟨k + 1, hi⟩, rfl, by simpa using hc⟩

/-- C8: over any instruction stream in which the frame offset selects
exactly one instruction and which does not begin with a CACHE/PRECALL
placeholder (true of every real code object), bytecode_nameof either
raises VarnameRetrievingError or returns a name, and it returns a name
only when the instruction at the offset, after skipping cache
placeholders, is a plain call instruction (CALL_FUNCTION, CALL_METHOD,
CALL or CALL_KW, so not the unpacked or keyword forms), the preceding
non-cache instruction is a LOAD_ instruction other than
KW_NAMES/LOAD_CONST, and its argrepr is a syntactically valid
identifier, which is the returned name. -/
theorem bytecode_nameof_shape (instrs : List Instr) (offset : Nat)
    (idx : Nat) (cur : Instr)
    (hmatch : find_offset_matches instrs offset = [(idx, cur)])
    (hhead : ∀ f, instrs.head? = some f →
        f.opname ≠ "CACHE" ∧ f.opname ≠ "PRECALL") :
    ((∃ msg, bytecode_nameof instrs offset
        = .error (.varnameRetrieving msg))
      ∨ (∃ nm, bytecode_nameof instrs offset = .ok nm))
    ∧ (∀ nm, bytecode_nameof instrs offset = .ok nm →
        py_isidentifier nm = true
        ∧ ∃ (j : Int) (call_ins : Instr),
            skip_while instrs ["CACHE"] (idx : Int) = .ok (j, call_ins)
            ∧ plain_call_opnames.contains call_ins.opname = true
            ∧ ∃ (j2 : Int) (load_ins : Instr),
                skip_while instrs ["CACHE", "PRECALL"] (j - 1)
                  = .ok (j2, load_ins)
                ∧ py_str_startswith load_ins.opname "LOAD_" = true
                ∧ load_ins.opname ≠ "KW_NAMES"
                ∧ load_ins.opname ≠ "LOAD_CONST"
                ∧ load_ins.argrepr = nm) := by
  have hmem : (idx, cur) ∈ instrs.enum := by
    have hmem2 : (idx, cur) ∈ find_offset_matches instrs offset := by
      rw [hmatch]; exact List.mem_singleton_self _
    exact (List.mem_filter.mp hmem2).1
  have hgetidx : instrs[idx]? = some cur :=
    List.mk_mem_enum_iff_getElem?.mp hmem
  have hidx : idx < instrs.length := by
    obtain ⟨h, _⟩ := List.getElem?_eq_some.mp hgetidx
    exact h
  have h0C : ∀ f, instrs.head? = some f →
      (["CACHE"] : List String).contains f.opname = false := by
    intro f hf
    obtain ⟨hA, _⟩ := hhead f hf
    simp [hA]
  have h0CP : ∀ f, instrs.head? = some f →
      (["CACHE", "PRECALL"] : List String).contains f.opname = false := by
    intro f hf
    obtain ⟨hA, hB⟩ := hhead f hf
    simp [hA, hB]
  obtain ⟨j1n, callins, hs1, hj1le, hget1, hns1⟩ :=
    skip_while_from_nat instrs ["CACHE"] h0C idx hidx
  have hpre : bytecode_nameof instrs offset =
      (if callins.opname == "CALL_FUNCTION_EX" ||
          callins.opname == "CALL_FUNCTION_KW" then
        .error (.varnameRetrieving pos_only_msg)
      else if !(plain_call_opnames.contains callins.opname) then
        .error (.varnameRetrieving "Did you call nameof in a weird way?")
      else
        match skip_while instrs ["CACHE", "PRECALL"]
            ((j1n : Int) - 1) with
        | .error e => .error e
        | .ok (_, name_instr) => bytecode_name_check name_instr) := by
    unfold bytecode_nameof
    simp only [hmatch, hs1]
  by_cases hex : (callins.opname == "CALL_FUNCTION_EX" ||
      callins.opname == "CALL_FUNCTION_KW") = true
  · have hE : bytecode_nameof instrs offset
        = .error (.varnameRetrieving pos_only_msg) := by
      rw [hpre]; simp [hex]
    refine ⟨.inl ⟨_, hE⟩, ?_⟩
    intro nm hnm
    rw [hE] at hnm
    exact absurd hnm (by simp)
  · by_cases hin : plain_call_opnames.contains callins.opname = true
    · have hsecond : ∃ (j2 : Int) (load_ins : Instr),
          skip_while instrs ["CACHE", "PRECALL"] ((j1n : Int) - 1)
            = .ok (j2, load_ins)
          ∧ (["CACHE", "PRECALL"] : List String).contains
              load_ins.opname = false := by
        rcases j1n with _ | k
        · have hlen1 : 1 ≤ instrs.length := by omega
          have hcast : ((0 : Nat) : Int) - 1
              = ((instrs.length - 1 : Nat) : Int) - instrs.length := by
            omega
          rw [hcast]
          obtain ⟨j2, load_ins, hs2, hns2⟩ :=
            skip_while_from_neg instrs ["CACHE", "PRECALL"] h0CP
              (instrs.length - 1) (by omega)
          exact ⟨j2, load_ins, hs2, hns2⟩
        · have hcast : ((k + 1 : Nat) : Int) - 1 = ((k : Nat) : Int) := by
            push_cast; ring
          rw [hcast]
          obtain ⟨j2n, load_ins, hs2, _, _, hns2⟩ :=
            skip_while_from_nat instrs ["CACHE", "PRECALL"] h0CP k
              (by omega)
          exact ⟨(j2n : Int), load_ins, hs2, hns2⟩
      obtain ⟨j2, load_ins, hs2, hns2⟩ := hsecond
      have hE : bytecode_nameof instrs offset
          = bytecode_name_check load_ins := by
        rw [hpre, if_neg hex, hin]
        simp only [Bool.not_true, Bool.false_eq_true, if_false]
        rw [hs2]
      obtain ⟨hshape1, hshape2⟩ := bytecode_name_check_shape load_ins
      constructor
      · rw [hE]; exact hshape1
      · intro nm hnm
        rw [hE] at hnm
        obtain ⟨hid, hsw, hkw, hlc, harg⟩ := hshape2 nm hnm
        exact ⟨hid, (j1n : Int), callins, hs1, hin, j2, load_ins, hs2,
          hsw, hkw, hlc, harg⟩
    · have hE : bytecode_nameof instrs offset
          = .error (.varnameRetrieving
              "Did you call nameof in a weird way?") := by
        have hinf : plain_call_opnames.contains callins.opname = false := by
          simpa using hin
        rw [hpre, if_neg hex, hinf]
        simp
      refine ⟨.inl ⟨_, hE⟩, ?_⟩
      intro nm hnm
      rw [hE] at hnm
      exact absurd hnm (by simp)

/-- Witness for C8: a two-instruction stream loading x then calling. -/
theorem bytecode_nameof_shape_witness :
    (find_offset_matches [⟨0, "LOAD_NAME", "x"⟩, ⟨2, "CALL_FUNCTION", ""⟩] 2
        = [(1, ⟨2, "CALL_FUNCTION", ""⟩)])
    ∧ ((∃ msg, bytecode_nameof [⟨0, "LOAD_NAME", "x"⟩,
          ⟨2, "CALL_FUNCTION", ""⟩] 2 = .error (.varnameRetrieving msg))
        ∨ (∃ nm, bytecode_nameof [⟨0, "LOAD_NAME", "x"⟩,
          ⟨2, "CALL_FUNCTION", ""⟩] 2 = .ok nm)) :=
  ⟨rfl,
   (bytecode_nameof_shape [⟨0, "LOAD_NAME", "x"⟩, ⟨2, "CALL_FUNCTION", ""⟩]
      2 1 ⟨2, "CALL_FUNCTION", ""⟩ rfl
      (by
        intro f hf
        simp at hf
        subst hf
        exact ⟨by decide, by decide⟩)).1⟩
